import Mathlib

/-!
Shallow embedding of the titanoboa execution harness core
(source file: src/boa/environment.py).

Pure data is modelled directly; Python in-place mutation is modelled by
explicit state passing (each operation returns the updated state), and
Python exceptions by `Except` / `Option` error channels.  The underlying
py-evm engine (opcode semantics, keccak, contract-address derivation,
message interpretation) is out of scope for the source file and enters
the embedding as explicit function parameters.
-/

/-- Canonical 20-byte account addresses, modelled as byte lists. -/
abbrev Addr := List Nat

/-- Values held by the patchable VM parameters (Python attribute values:
integers, an address, or the previous-block-hash list). -/
inductive PValue where
  | vInt (i : Int)
  | vBytes (b : List Nat)
  | vHashes (hs : List (List Nat))
  deriving DecidableEq

def PValue.toInt : PValue → Int
  | .vInt i => i
  | _ => 0

def PValue.toBytes : PValue → List Nat
  | .vBytes b => b
  | _ => []

def PValue.toHashes : PValue → List (List Nat)
  | .vHashes hs => hs
  | _ => []

/-- Errors reported by the underlying engine (opaque to this core). -/
inductive EngineError where
  | vmError (msg : String)
  | revertError (data : List Nat)
  deriving DecidableEq

/-- Exceptions raised by the code in environment.py: Python ValueError,
Python AttributeError, or a re-raised engine error. -/
inductive BoaError where
  | valueError (msg : String)
  | attributeError (name : String)
  | engineError (e : EngineError)
  deriving DecidableEq

/-- Model of vm.state.execution_context, the target object of
VMPatcher._exc_patchables.  Field order follows the dict. -/
structure ExecutionContext where
  block_number : Int
  timestamp : Int
  coinbase : List Nat
  difficulty : Int
  prev_hashes : List (List Nat)
  chain_id : Int
  gas_limit : Int
  deriving DecidableEq

/-- Model of the spurious_dragon computation module, the target object of
VMPatcher._cmp_patchables. -/
structure SpuriousDragon where
  EIP170_CODE_SIZE_LIMIT : Int
  deriving DecidableEq

/-- The pair of patch targets held in VMPatcher._patchables. -/
structure PatchTargets where
  exc : ExecutionContext
  cmp : SpuriousDragon
  deriving DecidableEq

/-- VMPatcher._exc_patchables: spec name to target attribute name. -/
def VMPatcher._exc_patchables : List (String × String) :=
  [("block_number", "_block_number"),
   ("timestamp", "_timestamp"),
   ("coinbase", "_coinbase"),
   ("difficulty", "_difficulty"),
   ("prev_hashes", "_prev_hashes"),
   ("chain_id", "_chain_id"),
   ("gas_limit", "_gas_limit")]

/-- VMPatcher._cmp_patchables. -/
def VMPatcher._cmp_patchables : List (String × String) :=
  [("code_size_limit", "EIP170_CODE_SIZE_LIMIT")]

/-- Dictionary lookup over a name-mapping list (Python `attr in s` / `s[attr]`). -/
def lookupStr (l : List (String × String)) (k : String) : Option String :=
  (l.find? (fun p => p.1 == k)).map (fun p => p.2)

/-- Python getattr on the execution-context target, by target attribute name. -/
def ExecutionContext.getAttr (c : ExecutionContext) (target : String) : PValue :=
  if target = "_block_number" then .vInt c.block_number
  else if target = "_timestamp" then .vInt c.timestamp
  else if target = "_coinbase" then .vBytes c.coinbase
  else if target = "_difficulty" then .vInt c.difficulty
  else if target = "_prev_hashes" then .vHashes c.prev_hashes
  else if target = "_chain_id" then .vInt c.chain_id
  else if target = "_gas_limit" then .vInt c.gas_limit
  else .vInt 0

/-- Python setattr on the execution-context target, by target attribute name. -/
def ExecutionContext.setAttr (c : ExecutionContext) (target : String) (v : PValue) :
    ExecutionContext :=
  if target = "_block_number" then { c with block_number := v.toInt }
  else if target = "_timestamp" then { c with timestamp := v.toInt }
  else if target = "_coinbase" then { c with coinbase := v.toBytes }
  else if target = "_difficulty" then { c with difficulty := v.toInt }
  else if target = "_prev_hashes" then { c with prev_hashes := v.toHashes }
  else if target = "_chain_id" then { c with chain_id := v.toInt }
  else if target = "_gas_limit" then { c with gas_limit := v.toInt }
  else c

/-- Python getattr on the spurious_dragon module target. -/
def SpuriousDragon.getAttr (m : SpuriousDragon) (target : String) : PValue :=
  if target = "EIP170_CODE_SIZE_LIMIT" then .vInt m.EIP170_CODE_SIZE_LIMIT
  else .vInt 0

/-- Python setattr on the spurious_dragon module target. -/
def SpuriousDragon.setAttr (m : SpuriousDragon) (target : String) (v : PValue) :
    SpuriousDragon :=
  if target = "EIP170_CODE_SIZE_LIMIT" then { m with EIP170_CODE_SIZE_LIMIT := v.toInt }
  else m

/-- VMPatcher.__getattr__: scan the patchables groups in order; a hit reads
the mapped attribute off the matching target; a miss raises AttributeError. -/
def VMPatcher.getattr (p : PatchTargets) (attr : String) : Except BoaError PValue :=
  match lookupStr VMPatcher._exc_patchables attr with
  | some tgt => .ok (p.exc.getAttr tgt)
  | none =>
    match lookupStr VMPatcher._cmp_patchables attr with
    | some tgt => .ok (p.cmp.getAttr tgt)
    | none => .error (.attributeError attr)

/-- VMPatcher.__setattr__: scan the patchables groups in order; a hit writes
the mapped attribute on the matching target and returns; a miss falls off
the end of the loop, silently leaving the state unchanged (the Python code
has no raise on this path). -/
def VMPatcher.setattr (p : PatchTargets) (attr : String) (v : PValue) : PatchTargets :=
  match lookupStr VMPatcher._exc_patchables attr with
  | some tgt => { p with exc := p.exc.setAttr tgt v }
  | none =>
    match lookupStr VMPatcher._cmp_patchables attr with
    | some tgt => { p with cmp := p.cmp.setAttr tgt v }
    | none => p

/-- Total read of a patchable attribute (used where the Python code accesses
an attribute it knows is patchable, e.g. vm.patch.timestamp). -/
def VMPatcher.getattrD (p : PatchTargets) (attr : String) : PValue :=
  match VMPatcher.getattr p attr with
  | .ok v => v
  | .error _ => .vInt 0

/-- Integer view of a patchable attribute. -/
def patchGetInt (p : PatchTargets) (attr : String) : Int :=
  (VMPatcher.getattrD p attr).toInt

/-- The snapshot dict built on entry to VMPatcher.anchor: every patchable
attribute name paired with its current value, in dict iteration order. -/
def VMPatcher.anchorSnap (p : PatchTargets) : List (String × PValue) :=
  (VMPatcher._exc_patchables ++ VMPatcher._cmp_patchables).map
    (fun kv => (kv.1, VMPatcher.getattrD p kv.1))

/-- The finally-block of VMPatcher.anchor: write every snapshotted attribute
back through setattr, in the same iteration order. -/
def VMPatcher.anchorRestore (snap : List (String × PValue)) (p : PatchTargets) :
    PatchTargets :=
  snap.foldl (fun q kv => VMPatcher.setattr q kv.1 kv.2) p

set_option maxHeartbeats 1000000 in
/-- Restoring the anchor snapshot of p over any intermediate patch state
yields exactly p: every patchable attribute is written back. -/
theorem anchorRestore_anchorSnap (p q : PatchTargets) :
    VMPatcher.anchorRestore (VMPatcher.anchorSnap p) q = p := by
  rfl

/-! ## Address codec and cache (Address.__new__) -/

/-- A constructed Address instance.  The id field models object identity:
each allocation gets a fresh id, so equal ids mean the referentially
identical Python object. -/
structure AddressObj where
  id : Nat
  checksum_address : String
  canonical_address : List Nat
  normalized_address : String
  deriving DecidableEq

/-- Modelled from the spec: boa.util.lrudict (the source file is not under
src/) — a bounded least-recently-used store, default capacity 1024, keyed
on the raw input representation.  Entries are kept least-recent first;
fresh is the allocation counter for object identity. -/
structure AddrCache where
  maxsize : Nat
  entries : List (String × AddressObj)
  fresh : Nat

/-- Plain lookup of a cached object (no recency update). -/
def AddrCache.lookup (c : AddrCache) (k : String) : Option AddressObj :=
  (c.entries.find? (fun e => e.1 == k)).map (fun e => e.2)

/-- Modelled from the spec: lrudict read — on a hit the entry is refreshed
to most-recently-used and the cached object returned; a miss is a KeyError. -/
def AddrCache.getItem (c : AddrCache) (k : String) : Option (AddressObj × AddrCache) :=
  match c.entries.find? (fun e => e.1 == k) with
  | some e =>
    some (e.2, { c with entries := c.entries.filter (fun x => !(x.1 == k)) ++ [(k, e.2)] })
  | none => none

/-- Modelled from the spec: lrudict write — evict the least-recently-used
entry when at capacity, then append as most-recently-used. -/
def AddrCache.setItem (c : AddrCache) (k : String) (v : AddressObj) : AddrCache :=
  let entries := if c.entries.length = c.maxsize then c.entries.drop 1 else c.entries
  { c with entries := entries ++ [(k, v)] }

/-- The raw argument of Address.__new__: either an existing Address
instance or a raw representation (str or bytes), keyed by its text. -/
inductive AddrInput where
  | addr (a : AddressObj)
  | raw (key : String)

/-- Address.__new__: an existing Address is returned as-is; otherwise the
cache is consulted; on a miss the three derived representations are
computed (checksum and canonical from the input, normalized as the
lowercased checksum), the object is cached, and returned.
to_checksum_address and to_canonical_address live in eth_utils (outside
this source file) and are passed in as parameters. -/
def AddressNew (to_checksum_address : String → String)
    (to_canonical_address : String → List Nat)
    (input : AddrInput) (cache : AddrCache) : AddressObj × AddrCache :=
  match input with
  | .addr a => (a, cache)
  | .raw key =>
    match cache.getItem key with
    | some hit => hit
    | none =>
      let checksum := to_checksum_address key
      let obj : AddressObj :=
        { id := cache.fresh,
          checksum_address := checksum,
          canonical_address := to_canonical_address key,
          normalized_address := checksum.toLower }
      (obj, { cache.setItem key obj with fresh := cache.fresh + 1 })

/-! ## Global precompile registry (register_raw_precompile) -/

/-- Membership test for a Python-dict model (insertion-ordered pairs). -/
def dictMem {V : Type} (l : List (String × V)) (k : String) : Bool :=
  l.any (fun p => p.1 == k)

/-- Python dict read. -/
def dictGet {V : Type} (l : List (String × V)) (k : String) : Option V :=
  (l.find? (fun p => p.1 == k)).map (fun p => p.2)

/-- Python dict assignment: update in place when the key exists, else
append in insertion order. -/
def dictSet {V : Type} (l : List (String × V)) (k : String) (v : V) :
    List (String × V) :=
  if dictMem l k then l.map (fun p => if p.1 == k then (k, v) else p)
  else l ++ [(k, v)]

/-- register_raw_precompile: raise ValueError when the address is already
bound and force is not set, else bind the handler.  The address has
already been canonicalized (Address(address)); keys are its text form. -/
def register_raw_precompile {H : Type} (precompiles : List (String × H))
    (address : String) (fn : H) (force : Bool) :
    Except BoaError (List (String × H)) :=
  if dictMem precompiles address ∧ ¬force then
    .error (.valueError ("Already registered: " ++ address))
  else
    .ok (dictSet precompiles address fn)

/-- deregister_raw_precompile: raise ValueError when absent and not forced,
else remove the binding if present. -/
def deregister_raw_precompile {H : Type} (precompiles : List (String × H))
    (address : String) (force : Bool) :
    Except BoaError (List (String × H)) :=
  if ¬dictMem precompiles address ∧ ¬force then
    .error (.valueError "Not registered: (address)")
  else
    .ok (precompiles.filter (fun p => !(p.1 == address)))

theorem dictGet_mapSet {V : Type} (l : List (String × V)) (k : String) (v : V)
    (hm : dictMem l k = true) :
    dictGet (l.map (fun p => if p.1 == k then (k, v) else p)) k = some v := by
  induction l with
  | nil => simp [dictMem] at hm
  | cons p t ih =>
    cases hp : (p.1 == k) with
    | true =>
      have hf : (fun q : String × V => if q.1 == k then (k, v) else q) p = (k, v) := by
        simp [hp]
      simp only [List.map_cons, hf, dictGet]
      rw [List.find?_cons_of_pos _ (by simp)]
      rfl
    | false =>
      have hf : (fun q : String × V => if q.1 == k then (k, v) else q) p = p := by
        simp [hp]
      simp only [dictMem, List.any_cons, hp, Bool.false_or] at hm
      simp only [List.map_cons, hf, dictGet]
      rw [List.find?_cons_of_neg _ (by simp [hp])]
      simpa [dictGet] using ih hm

theorem dictGet_append_new {V : Type} (l : List (String × V)) (k : String) (v : V)
    (hm : dictMem l k = false) :
    dictGet (l ++ [(k, v)]) k = some v := by
  induction l with
  | nil =>
    simp only [List.nil_append, dictGet]
    rw [List.find?_cons_of_pos _ (by simp)]
    rfl
  | cons p t ih =>
    cases hp : (p.1 == k) with
    | true => simp [dictMem, List.any_cons, hp] at hm
    | false =>
      simp only [dictMem, List.any_cons, hp, Bool.false_or] at hm
      simp only [List.cons_append, dictGet]
      rw [List.find?_cons_of_neg _ (by simp [hp])]
      simpa [dictGet] using ih hm

theorem dictGet_dictSet {V : Type} (l : List (String × V)) (k : String) (v : V) :
    dictGet (dictSet l k v) k = some v := by
  by_cases hm : dictMem l k = true
  · simp only [dictSet, hm, if_true]
    exact dictGet_mapSet l k v hm
  · have hm' : dictMem l k = false := by simpa using hm
    simp only [dictSet, hm', Bool.false_eq_true, if_false]
    exact dictGet_append_new l k v hm'

/-! ## Engine state, messages, computations -/

/-- The slice of the underlying engine's world state this core reads and
writes through narrow interfaces: balances, nonces, code, and storage. -/
structure EngineState where
  balances : Addr → Nat
  nonces : Addr → Nat
  code : Addr → List Nat
  storage : Addr → Nat → Nat

/-- A call/create message (eth.vm.message.Message plus the synthetic
attributes FakeMessage carries: fake_codesize and start_pc). -/
structure Message where
  toAddr : Addr
  sender : Addr
  gas : Int
  value : Nat
  code : List Nat
  data : List Nat
  is_static : Bool
  create_address : Addr
  storage_address : Addr
  code_address : Addr
  fake_codesize : Option Nat
  start_pc : Nat

/-- The observable part of a py-evm computation object: its message, the
evaluation stack (top element last, as in py-evm stack.values), memory
bytes, and the outcome fields. -/
structure ComputationObj where
  msg : Message
  stack : List Nat
  memory : List Nat
  is_error : Bool
  error : EngineError
  output : List Nat

/-- Peek the n-th stack item from the top without popping
(computation._stack.values[-1 - n]). -/
def stackPeek (s : List Nat) (n : Nat) : Nat :=
  s.getD (s.length - 1 - n) 0

/-- Read size bytes of memory starting at offset; memory is implicitly
zero-extended, as py-evm extends memory before the read. -/
def readBytes (mem : List Nat) (offset size : Nat) : List Nat :=
  (List.range size).map (fun i => mem.getD (offset + i) 0)

/-- The native halting signal raised by a handler's ir_executor
(eth.exceptions.Halt). -/
inductive VMSignal where
  | halt
  deriving DecidableEq

/-- A registered contract handler, opaque to this core except for its
native executor.  ir_exec returns the computation as mutated by the run
together with the Halt signal when one was raised. -/
structure ContractHandler where
  ir_exec : ComputationObj → ComputationObj × Option VMSignal

/-- Execution speed modes. -/
def _SLOW : Nat := 0

def _FAST : Nat := 1

def _LUDICROUS : Nat := 2

/-- The orchestrating environment (class Env): the engine state handle,
the VM patcher targets, the default sender, the per-environment contract
registry keyed by canonical address, the speed mode, and the two trace
stores. -/
structure Env where
  state : EngineState
  patch : PatchTargets
  eoa : Option Addr
  contracts : Addr → Option ContractHandler
  speed : Nat
  sha3_trace : Nat → Option (List Nat)
  sstore_trace : Addr → Option (Finset Nat)

/-- Env._trace_sha3_preimage: record the preimage under its hash image. -/
def Env._trace_sha3_preimage (env : Env) (preimage : List Nat) (image : Nat) : Env :=
  { env with sha3_trace := fun k =>
      if k = image then some preimage else env.sha3_trace k }

/-- Env._trace_sstore: setdefault the account's slot set and add the slot
(the touched-slot set is deduplicated by construction). -/
def Env._trace_sstore (env : Env) (account : Addr) (slot : Nat) : Env :=
  { env with sstore_trace := fun a =>
      if a = account then some (insert slot ((env.sstore_trace account).getD ∅))
      else env.sstore_trace a }

/-- The deduplicated slot set recorded for an account (empty when the
account was never traced). -/
def Env.traceSlots (env : Env) (account : Addr) : Finset Nat :=
  (env.sstore_trace account).getD ∅

/-- The wrapped SSTORE opcode of the underlying engine: pop the slot (top)
and the value, then write the executing account's storage. -/
def sstore_opcode (env : Env) (c : ComputationObj) : Env × ComputationObj :=
  let slot := stackPeek c.stack 0
  let value := stackPeek c.stack 1
  let st := env.state
  ({ env with state :=
      { st with storage := fun a s =>
          if a = c.msg.storage_address ∧ s = slot then value
          else st.storage a s } },
   { c with stack := c.stack.dropLast.dropLast })

/-- SstoreTracer.__call__: read the value and slot operands off the stack
without popping, record the (account, slot) touch, then dispatch into the
real SSTORE unconditionally (also when the written value is zero). -/
def SstoreTracer.call (env : Env) (c : ComputationObj) : Env × ComputationObj :=
  let slot := stackPeek c.stack 0
  let account := c.msg.storage_address
  let env' := Env._trace_sstore env account slot
  sstore_opcode env' c

/-- The wrapped SHA3 opcode of the underlying engine: pop the offset (top)
and size, read the input bytes from memory, push the hash.  The hash
function itself belongs to the engine and is a parameter. -/
def sha3_opcode (keccak : List Nat → Nat) (c : ComputationObj) : ComputationObj :=
  let offset := stackPeek c.stack 0
  let size := stackPeek c.stack 1
  let data := readBytes c.memory offset size
  { c with stack := c.stack.dropLast.dropLast ++ [keccak data] }

/-- Sha3PreimageTracer.__call__: read the size and offset operands, dispatch
into the real SHA3, and afterwards — only when the input size is exactly
64 bytes — read the exact input bytes and the resulting hash off the
post-dispatch computation and record the (image, preimage) pair. -/
def Sha3PreimageTracer.call (keccak : List Nat → Nat) (env : Env) (c : ComputationObj) :
    Env × ComputationObj :=
  let size := stackPeek c.stack 1
  let offset := stackPeek c.stack 0
  let c' := sha3_opcode keccak c
  if size ≠ 64 then (env, c')
  else
    let preimage := readBytes c'.memory offset size
    let image := stackPeek c'.stack 0
    (Env._trace_sha3_preimage env preimage image, c')

/-- Env._lookup_contract_fast: exact-address dictionary lookup, O(1). -/
def Env._lookup_contract_fast (env : Env) (address : Addr) : Option ContractHandler :=
  env.contracts address

/-- titanoboa_computation.apply_computation: look up a registered handler
for the code address (skipping the lookup entirely for an empty address);
with no handler, or in slow mode, delegate to the underlying interpreter
(superApply); otherwise construct a frame (mkComp models cls(state, msg,
tx_ctx)) and run the handler's native executor inside it, catching the
Halt signal so the frame completes ordinarily. -/
def titanoboa_apply_computation (env : Env)
    (superApply : EngineState → Message → ComputationObj)
    (mkComp : EngineState → Message → ComputationObj)
    (state : EngineState) (msg : Message) : ComputationObj :=
  let addr := msg.code_address
  let contract := if addr ≠ [] then Env._lookup_contract_fast env addr else none
  match contract with
  | none => superApply state msg
  | some contract =>
    if env.speed = _SLOW then superApply state msg
    else
      match contract.ir_exec (mkComp state msg) with
      | (comp, some .halt) => comp
      | (comp, none) => comp

/-- Harness for the C-spec storage-write scenario: execute one traced
SSTORE per (value, slot) pair — pushing the operands first, as the
interpreter would — against one computation frame. -/
def runSstoreWrites : Env → ComputationObj → List (Nat × Nat) → Env × ComputationObj
  | env, c, [] => (env, c)
  | env, c, w :: ws =>
    let pushed := { c with stack := c.stack ++ [w.1, w.2] }
    let r := SstoreTracer.call env pushed
    runSstoreWrites r.1 r.2 ws

/-! ## Env orchestrator methods -/

/-- Env.set_balance: write a balance through the engine interface. -/
def Env.set_balance (env : Env) (addr : Addr) (value : Nat) : Env :=
  { env with state :=
      { env.state with balances := fun a =>
          if a = addr then value else env.state.balances a } }

/-- Env.get_balance. -/
def Env.get_balance (env : Env) (addr : Addr) : Nat :=
  env.state.balances addr

/-- Env._get_sender: default the sender to self.eoa; raise ValueError when
self.eoa is not defined. -/
def Env._get_sender (env : Env) (sender : Option Addr) : Except BoaError Addr :=
  let sender := match sender with
    | none => env.eoa
    | some s => some s
  match env.eoa, sender with
  | none, _ => .error (.valueError "eoa not defined!")
  | some _, some s => .ok s
  | some e, none => .ok e

/-- Env.deploy_code: default gas to the patched gas limit; resolve the
sender; with an override address use it as the target, otherwise read the
sender's nonce, increment it, and derive the target from (sender, nonce)
via the engine's generate_contract_address (a parameter here); submit the
creation message to the engine (apply_create, a parameter standing for
computation_class.apply_create_message); re-raise an engine error,
otherwise return the target address and the constructor output. -/
def Env.deploy_code (gen_addr : Addr → Nat → Addr)
    (apply_create : EngineState → Message → ComputationObj × EngineState)
    (env : Env) (sender : Option Addr) (gas : Option Int) (value : Nat)
    (bytecode : List Nat) (start_pc : Nat) (override_address : Option Addr) :
    Except BoaError (Addr × List Nat) × Env :=
  let gas := gas.getD (patchGetInt env.patch "gas_limit")
  match Env._get_sender env sender with
  | .error e => (.error e, env)
  | .ok sender =>
    let targetAndEnv : Addr × Env :=
      match override_address with
      | some oa => (oa, env)
      | none =>
        let nonce := env.state.nonces sender
        let env' := { env with state :=
            { env.state with nonces := fun a =>
                if a = sender then env.state.nonces a + 1
                else env.state.nonces a } }
        (gen_addr sender nonce, env')
    let target_address := targetAndEnv.1
    let env := targetAndEnv.2
    let msg : Message :=
      { toAddr := [],                     -- constants.CREATE_CONTRACT_ADDRESS
        sender := sender,
        gas := gas,
        value := value,
        code := bytecode,
        data := [],
        is_static := false,
        create_address := target_address,
        storage_address := target_address, -- engine: create_address when creating
        code_address := [],                 -- engine: defaults to msg.to
        fake_codesize := none,
        start_pc := 0 }
    let run := apply_create env.state msg
    let c := run.1
    let env := { env with state := run.2 }
    if c.is_error then (.error (.engineError c.error), env)
    else (.ok (target_address, c.output), env)

/-- Env.execute_code: default gas to the patched gas limit; resolve the
sender; take the bytecode from the override or from the code stored at the
target; build the invocation message (carrying the synthetic
fake_codesize/start_pc attributes) and submit it to the engine
(apply_message, a parameter standing for computation_class.apply_message);
return the full computation object without raising on failure. -/
def Env.execute_code
    (apply_message : EngineState → Message → ComputationObj × EngineState)
    (env : Env) (to_address : Addr) (sender : Option Addr) (gas : Option Int)
    (value : Nat) (data : List Nat) (override_bytecode : Option (List Nat))
    (is_modifying : Bool) (start_pc : Nat) (fake_codesize : Option Nat) :
    Except BoaError ComputationObj × Env :=
  let gas := gas.getD (patchGetInt env.patch "gas_limit")
  match Env._get_sender env sender with
  | .error e => (.error e, env)
  | .ok sender =>
    let toA := to_address
    let bytecode := override_bytecode.getD (env.state.code toA)
    let is_static := !is_modifying
    let msg : Message :=
      { toAddr := toA,
        sender := sender,
        gas := gas,
        value := value,
        code := bytecode,
        data := data,
        is_static := is_static,
        create_address := [],
        storage_address := toA,            -- engine: defaults to msg.to
        code_address := toA,               -- engine: defaults to msg.to
        fake_codesize := fake_codesize,
        start_pc := start_pc }
    let run := apply_message env.state msg
    (.ok run.1, { env with state := run.2 })

/-- The scoped acquisitions and releases performed by Env.anchor, in
program order. -/
inductive AnchorEvent where
  | snapshotState
  | snapshotPatch
  | restorePatch
  | revertState
  deriving DecidableEq

/-- Env.anchor: take an engine state snapshot, then enter the patcher
anchor (snapshotting the patchable parameters); run the body (which may
mutate the environment arbitrarily and may raise); then — innermost
finally first — restore the patch snapshot, and finally revert the engine
state to the snapshot id.  The body's outcome (normal or error) is
propagated unchanged.  The event list records acquisition/release order. -/
def Env.anchor {ε : Type} (env : Env) (body : Env → Option ε × Env) :
    (Option ε × Env) × List AnchorEvent :=
  let snapshot_id := env.state                       -- self.vm.state.snapshot()
  let snap := VMPatcher.anchorSnap env.patch         -- entering vm.patch.anchor()
  let run := body env
  let err := run.1
  let env1 := run.2
  let env2 := { env1 with patch := VMPatcher.anchorRestore snap env1.patch }
  let env3 := { env2 with state := snapshot_id }     -- self.vm.state.revert(...)
  ((err, env3),
   [AnchorEvent.snapshotState, AnchorEvent.snapshotPatch,
    AnchorEvent.restorePatch, AnchorEvent.revertState])

/-- Env.time_travel: require exactly one of seconds/blocks (else
ValueError); derive the omitted quantity via block_delta (Python floor
division for seconds // block_delta); then advance the patched timestamp
and block number. -/
def Env.time_travel (env : Env) (seconds blocks : Option Int) (block_delta : Int) :
    Except BoaError Env :=
  if (seconds.isNone) = (blocks.isNone) then
    .error (.valueError "One of seconds or blocks should be set")
  else
    let sb : Int × Int :=
      match seconds, blocks with
      | some s, _ => (s, Int.fdiv s block_delta)
      | none, some b => (b * block_delta, b)
      | none, none => (0, 0)  -- unreachable: guarded above
    let p := env.patch
    let p := VMPatcher.setattr p "timestamp"
      (.vInt (patchGetInt p "timestamp" + sb.1))
    let p := VMPatcher.setattr p "block_number"
      (.vInt (patchGetInt p "block_number" + sb.2))
    .ok { env with patch := p }

/-! ## Concrete fixtures (used by closed evaluation theorems) -/

def ctxA : ExecutionContext :=
  { block_number := 1, timestamp := 1700000000, coinbase := [0], difficulty := 131072,
    prev_hashes := [], chain_id := 1, gas_limit := 100000000 }

def sdA : SpuriousDragon :=
  { EIP170_CODE_SIZE_LIMIT := 24577 }

def patchA : PatchTargets :=
  { exc := ctxA, cmp := sdA }

def stateA : EngineState :=
  { balances := fun _ => 0, nonces := fun _ => 0,
    code := fun _ => [], storage := fun _ _ => 0 }

def handlerHalt : ContractHandler :=
  { ir_exec := fun c => ({ c with output := [7] }, some .halt) }

def envA : Env :=
  { state := stateA, patch := patchA, eoa := some [9],
    contracts := fun a => if a = [1] then some handlerHalt else none,
    speed := _FAST,
    sha3_trace := fun _ => none, sstore_trace := fun _ => none }

def msgA : Message :=
  { toAddr := [1], sender := [9], gas := 1000, value := 0, code := [0x60],
    data := [], is_static := false, create_address := [], storage_address := [1],
    code_address := [1], fake_codesize := none, start_pc := 0 }

def compA : ComputationObj :=
  { msg := msgA, stack := [], memory := [], is_error := false,
    error := .vmError "", output := [] }

def compSha : ComputationObj :=
  { msg := msgA, stack := [64, 0], memory := [], is_error := false,
    error := .vmError "", output := [] }

def compErr : ComputationObj :=
  { msg := msgA, stack := [], memory := [], is_error := true,
    error := .revertError [1, 2], output := [] }

def cacheA : AddrCache :=
  { maxsize := 1024,
    entries := [("0xabc", { id := 0, checksum_address := "0xAbC",
                            canonical_address := [10, 11, 12],
                            normalized_address := "0xabc" })],
    fresh := 1 }

/-! ## Helper lemmas -/

theorem stackPeek_append_one (s : List Nat) (x : Nat) :
    stackPeek (s ++ [x]) 0 = x := by
  unfold stackPeek
  rw [List.getD_eq_getElem?_getD, List.length_append]
  simp only [List.length_cons, List.length_nil]
  rw [show s.length + 1 - 1 - 0 = s.length from rfl]
  rw [List.getElem?_append_right (le_refl s.length)]
  simp

theorem stackPeek_append_two_top (s : List Nat) (v sl : Nat) :
    stackPeek (s ++ [v, sl]) 0 = sl := by
  unfold stackPeek
  rw [List.getD_eq_getElem?_getD, List.length_append]
  simp only [List.length_cons, List.length_nil]
  rw [show s.length + 2 - 1 - 0 = s.length + 1 from rfl]
  rw [List.getElem?_append_right (Nat.le_add_right s.length 1)]
  rw [Nat.add_sub_cancel_left]
  simp

theorem stackPeek_append_two_snd (s : List Nat) (v sl : Nat) :
    stackPeek (s ++ [v, sl]) 1 = v := by
  unfold stackPeek
  rw [List.getD_eq_getElem?_getD, List.length_append]
  simp only [List.length_cons, List.length_nil]
  rw [show s.length + 2 - 1 - 1 = s.length from rfl]
  rw [List.getElem?_append_right (le_refl s.length)]
  simp

theorem dropLast_dropLast_append_two (s : List Nat) (v sl : Nat) :
    (s ++ [v, sl]).dropLast.dropLast = s := by
  have h : s ++ [v, sl] = (s ++ [v]) ++ [sl] := by
    rw [List.append_assoc]
    rfl
  rw [h, List.dropLast_concat, List.dropLast_concat]

set_option maxHeartbeats 1000000 in
theorem patchGetInt_set_ts_ts (p : PatchTargets) (x : Int) :
    patchGetInt (VMPatcher.setattr p "timestamp" (.vInt x)) "timestamp" = x := rfl

set_option maxHeartbeats 1000000 in
theorem patchGetInt_set_bn_bn (p : PatchTargets) (x : Int) :
    patchGetInt (VMPatcher.setattr p "block_number" (.vInt x)) "block_number" = x := rfl

set_option maxHeartbeats 1000000 in
theorem patchGetInt_set_ts_bn (p : PatchTargets) (v : PValue) :
    patchGetInt (VMPatcher.setattr p "timestamp" v) "block_number" =
      patchGetInt p "block_number" := rfl

set_option maxHeartbeats 1000000 in
theorem patchGetInt_set_bn_ts (p : PatchTargets) (v : PValue) :
    patchGetInt (VMPatcher.setattr p "block_number" v) "timestamp" =
      patchGetInt p "timestamp" := rfl

/-- The parameter names recognized by the patcher. -/
def patchableNames : List String :=
  (VMPatcher._exc_patchables ++ VMPatcher._cmp_patchables).map (fun kv => kv.1)

theorem lookupStr_eq_none_of_not_mem (l : List (String × String)) (k : String)
    (h : k ∉ l.map (fun kv => kv.1)) : lookupStr l k = none := by
  have hf : l.find? (fun p => p.1 == k) = none := by
    rw [List.find?_eq_none]
    intro x hx hc
    apply h
    have hxk : x.1 = k := by simpa using hc
    exact hxk ▸ List.mem_map_of_mem (fun kv => kv.1) hx
  unfold lookupStr
  rw [hf]
  rfl

theorem get_sender_ok (env : Env) (e : Addr) (sender : Option Addr)
    (heoa : env.eoa = some e) :
    Env._get_sender env sender = .ok (sender.getD e) := by
  cases sender with
  | none => simp [Env._get_sender, heoa]
  | some s => simp [Env._get_sender, heoa]

theorem sstoreTracer_call_comp (env : Env) (c : ComputationObj) (v sl : Nat) :
    (SstoreTracer.call env { c with stack := c.stack ++ [v, sl] }).2 = c := by
  show { c with stack := (c.stack ++ [v, sl]).dropLast.dropLast } = c
  rw [dropLast_dropLast_append_two]

theorem sstoreTracer_call_trace (env : Env) (c : ComputationObj) (v sl : Nat) :
    ((SstoreTracer.call env { c with stack := c.stack ++ [v, sl] }).1).sstore_trace =
      (Env._trace_sstore env c.msg.storage_address
        (stackPeek (c.stack ++ [v, sl]) 0)).sstore_trace := by
  rfl

theorem traceSlots_trace_sstore (env : Env) (account : Addr) (slot : Nat) :
    Env.traceSlots (Env._trace_sstore env account slot) account =
      insert slot (Env.traceSlots env account) := by
  simp [Env.traceSlots, Env._trace_sstore]

theorem runSstoreWrites_trace_union (writes : List (Nat × Nat)) (env : Env)
    (c : ComputationObj) :
    Env.traceSlots (runSstoreWrites env c writes).1 c.msg.storage_address =
      Env.traceSlots env c.msg.storage_address ∪ (writes.map Prod.snd).toFinset := by
  induction writes generalizing env c with
  | nil => simp [runSstoreWrites]
  | cons w ws ih =>
    rw [runSstoreWrites]
    rw [sstoreTracer_call_comp env c w.1 w.2]
    rw [ih]
    have htr : Env.traceSlots
        (SstoreTracer.call env { c with stack := c.stack ++ [w.1, w.2] }).1
        c.msg.storage_address =
        insert w.2 (Env.traceSlots env c.msg.storage_address) := by
      unfold Env.traceSlots
      rw [sstoreTracer_call_trace env c w.1 w.2]
      rw [stackPeek_append_two_top]
      exact traceSlots_trace_sstore env c.msg.storage_address w.2
    rw [htr]
    rw [List.map_cons, List.toFinset_cons, Finset.union_insert, Finset.insert_union]

/-! ## Claim theorems -/

set_option maxHeartbeats 2000000 in
/-- C1: for every use of Env.anchor with any body (which may mutate balances
and patched parameters arbitrarily and may exit normally or with an error),
the engine state — hence every balance — and the patcher parameters — hence
a patched timestamp — are restored to their exact pre-entry values on exit;
the body's outcome is propagated unchanged; and the unwind happens in
reverse acquisition order: state snapshot, patch snapshot on entry, then
patch restore before state revert on exit. -/
theorem anchor_unwinds_state_and_patch_in_reverse_order {ε : Type} (env : Env)
    (body : Env → Option ε × Env) :
    ((Env.anchor env body).1.2.state = env.state) ∧
    ((Env.anchor env body).1.2.state.balances = env.state.balances) ∧
    ((Env.anchor env body).1.2.patch = env.patch) ∧
    (patchGetInt (Env.anchor env body).1.2.patch "timestamp" =
      patchGetInt env.patch "timestamp") ∧
    ((Env.anchor env body).1.1 = (body env).1) ∧
    ((Env.anchor env body).2 =
      [AnchorEvent.snapshotState, AnchorEvent.snapshotPatch,
       AnchorEvent.restorePatch, AnchorEvent.revertState]) := by
  have hp : (Env.anchor env body).1.2.patch = env.patch := by
    show VMPatcher.anchorRestore (VMPatcher.anchorSnap env.patch) (body env).2.patch =
      env.patch
    exact anchorRestore_anchorSnap env.patch (body env).2.patch
  exact ⟨rfl, rfl, hp, by rw [hp], rfl, rfl⟩

set_option maxHeartbeats 2000000 in
/-- C3: time_travel with seconds 120 and block_delta 12 advances the block
number by exactly 10 and the timestamp by exactly 120; supplying both or
neither of seconds/blocks raises the ValueError realizing InvalidArgument;
supplying only blocks advances the timestamp by blocks * block_delta. -/
theorem time_travel_consistent_advance (env : Env) :
    (∃ env1, Env.time_travel env (some 120) none 12 = .ok env1 ∧
      patchGetInt env1.patch "block_number" = patchGetInt env.patch "block_number" + 10 ∧
      patchGetInt env1.patch "timestamp" = patchGetInt env.patch "timestamp" + 120) ∧
    (∀ s b d : Int, Env.time_travel env (some s) (some b) d =
      .error (.valueError "One of seconds or blocks should be set")) ∧
    (∀ d : Int, Env.time_travel env none none d =
      .error (.valueError "One of seconds or blocks should be set")) ∧
    (∀ b d : Int, ∃ env1, Env.time_travel env none (some b) d = .ok env1 ∧
      patchGetInt env1.patch "timestamp" = patchGetInt env.patch "timestamp" + b * d ∧
      patchGetInt env1.patch "block_number" = patchGetInt env.patch "block_number" + b) := by
  refine ⟨⟨_, rfl, ?_, ?_⟩, fun s b d => rfl, fun d => rfl, fun b d => ⟨_, rfl, ?_, ?_⟩⟩
  · rw [patchGetInt_set_bn_bn, patchGetInt_set_ts_bn]
    norm_num [Int.fdiv]
  · rw [patchGetInt_set_bn_ts, patchGetInt_set_ts_ts]
  · rw [patchGetInt_set_bn_ts, patchGetInt_set_ts_ts]
  · rw [patchGetInt_set_bn_bn, patchGetInt_set_ts_bn]

/-- C5 counterexample: the claim says setting an unrecognized parameter
name fails with UnknownParameter and is not silently ignored; but
VMPatcher.__setattr__ has no raise on its fall-through path, so setting
the unrecognized name "gas_price" on a concrete patcher silently returns
with every parameter unchanged — no error is signalled. -/
theorem patcher_set_unknown_silently_ignored :
    VMPatcher.setattr patchA "gas_price" (.vInt 7) = patchA := by
  rfl

/-- C5 (amended): for every parameter name outside the recognized set,
getting fails with the AttributeError realizing UnknownParameter, while
setting is silently ignored, leaving the patch state unchanged. -/
theorem patcher_unknown_name_get_raises_set_ignored (p : PatchTargets)
    (attr : String) (v : PValue) (h : attr ∉ patchableNames) :
    VMPatcher.getattr p attr = .error (.attributeError attr) ∧
    VMPatcher.setattr p attr v = p := by
  have hsplit := h
  simp only [patchableNames, List.map_append, List.mem_append] at hsplit
  push_neg at hsplit
  have h1 := lookupStr_eq_none_of_not_mem VMPatcher._exc_patchables attr hsplit.1
  have h2 := lookupStr_eq_none_of_not_mem VMPatcher._cmp_patchables attr hsplit.2
  constructor
  · simp [VMPatcher.getattr, h1, h2]
  · simp [VMPatcher.setattr, h1, h2]

/-- C5 witness: the amended claim evaluated at the concrete unrecognized
name "gas_price". -/
theorem patcher_unknown_name_witness :
    VMPatcher.getattr patchA "gas_price" = .error (.attributeError "gas_price") ∧
    VMPatcher.setattr patchA "gas_price" (.vInt 7) = patchA :=
  patcher_unknown_name_get_raises_set_ignored patchA "gas_price" (.vInt 7) (by decide)

/-- C6: Address.__new__ applied to an existing Address returns that
identical instance with the cache untouched; applied to a raw input that
is still cached, it returns the referentially identical cached object
(same allocation id), so its derived checksummed and normalized string
forms are identical too. -/
theorem address_cache_referential_identity
    (to_checksum_address : String → String) (to_canonical_address : String → List Nat)
    (a obj : AddressObj) (cache : AddrCache) (key : String)
    (h : cache.lookup key = some obj) :
    AddressNew to_checksum_address to_canonical_address (.addr a) cache = (a, cache) ∧
    (AddressNew to_checksum_address to_canonical_address (.raw key) cache).1 = obj ∧
    (AddressNew to_checksum_address to_canonical_address (.raw key) cache).1.id =
      obj.id ∧
    (AddressNew to_checksum_address to_canonical_address
        (.raw key) cache).1.checksum_address = obj.checksum_address ∧
    (AddressNew to_checksum_address to_canonical_address
        (.raw key) cache).1.normalized_address = obj.normalized_address := by
  unfold AddrCache.lookup at h
  cases hf : cache.entries.find? (fun e => e.1 == key) with
  | none =>
    rw [hf] at h
    exact absurd h (by simp)
  | some entry =>
    rw [hf] at h
    have hobj : entry.2 = obj := by simpa using h
    have hfst : (AddressNew to_checksum_address to_canonical_address
        (.raw key) cache).1 = obj := by
      simp only [AddressNew, AddrCache.getItem, hf]
      exact hobj
    exact ⟨rfl, hfst, by rw [hfst], by rw [hfst], by rw [hfst]⟩

/-- C6 witness: the cached raw key of cacheA yields the cached object. -/
theorem address_cache_referential_identity_witness :
    (AddressNew (fun s => s) (fun _ => []) (.raw "0xabc") cacheA).1 =
      { id := 0, checksum_address := "0xAbC", canonical_address := [10, 11, 12],
        normalized_address := "0xabc" } :=
  (address_cache_referential_identity (fun s => s) (fun _ => [])
    { id := 0, checksum_address := "0xAbC", canonical_address := [10, 11, 12],
      normalized_address := "0xabc" }
    { id := 0, checksum_address := "0xAbC", canonical_address := [10, 11, 12],
      normalized_address := "0xabc" }
    cacheA "0xabc" rfl).2.1

/-- C7: register_raw_precompile on an already-bound address fails with the
ValueError realizing DuplicateRegistration when force is false — returning
the error and no updated registry, so the registry is left unchanged —
and with force it rebinds the address to the new handler. -/
theorem register_raw_precompile_duplicate_vs_force {H : Type}
    (precompiles : List (String × H)) (address : String) (fn : H)
    (hmem : dictMem precompiles address = true) :
    register_raw_precompile precompiles address fn false =
      .error (.valueError ("Already registered: " ++ address)) ∧
    register_raw_precompile precompiles address fn true =
      .ok (dictSet precompiles address fn) ∧
    dictGet (dictSet precompiles address fn) address = some fn := by
  refine ⟨?_, ?_, dictGet_dictSet precompiles address fn⟩
  · simp [register_raw_precompile, hmem]
  · simp [register_raw_precompile]

/-- C7 witness: a concrete one-entry registry. -/
theorem register_raw_precompile_witness :
    register_raw_precompile [("0x01", (1 : Nat))] "0x01" 2 false =
      .error (.valueError ("Already registered: " ++ "0x01")) ∧
    register_raw_precompile [("0x01", (1 : Nat))] "0x01" 2 true =
      .ok (dictSet [("0x01", (1 : Nat))] "0x01" 2) ∧
    dictGet (dictSet [("0x01", (1 : Nat))] "0x01" 2) "0x01" = some 2 :=
  register_raw_precompile_duplicate_vs_force [("0x01", (1 : Nat))] "0x01" 2 (by decide)

/-- C8: for every sequence of storage writes executed by one account
starting from a fresh trace, the recorded sstore trace for that account is
exactly the deduplicated set of slots written; the statement is independent
of the written values, so a write is recorded even when its value is zero. -/
theorem sstore_trace_is_dedup_slot_set (env : Env) (c : ComputationObj)
    (writes : List (Nat × Nat))
    (h0 : env.sstore_trace c.msg.storage_address = none) :
    Env.traceSlots (runSstoreWrites env c writes).1 c.msg.storage_address =
      (writes.map Prod.snd).toFinset := by
  rw [runSstoreWrites_trace_union]
  simp [Env.traceSlots, h0]

/-- C8 witness: writing slots 1, 2, then 1 again (the last with value zero)
records exactly the slot set containing 1 and 2. -/
theorem sstore_trace_is_dedup_slot_set_witness :
    Env.traceSlots (runSstoreWrites envA compA [(5, 1), (6, 2), (0, 1)]).1
      compA.msg.storage_address = {1, 2} := by
  have h := sstore_trace_is_dedup_slot_set envA compA [(5, 1), (6, 2), (0, 1)] rfl
  rw [h]
  decide

/-- C9: the hash hook always dispatches into the real hash operation (the
resulting computation is exactly the delegated one); when the input size
operand is exactly 64 it records exactly the pair of the resulting hash
image and the 64-byte preimage read back from memory, touching no other
trace entry; for any other input size the environment is left unchanged
(nothing is recorded). -/
theorem sha3_tracer_records_two_word_preimages (keccak : List Nat → Nat)
    (env : Env) (c : ComputationObj) :
    ((Sha3PreimageTracer.call keccak env c).2 = sha3_opcode keccak c) ∧
    (stackPeek c.stack 1 = 64 →
      (readBytes c.memory (stackPeek c.stack 0) 64).length = 64 ∧
      ((Sha3PreimageTracer.call keccak env c).1).sha3_trace
          (keccak (readBytes c.memory (stackPeek c.stack 0) 64)) =
        some (readBytes c.memory (stackPeek c.stack 0) 64) ∧
      (∀ k, k ≠ keccak (readBytes c.memory (stackPeek c.stack 0) 64) →
        ((Sha3PreimageTracer.call keccak env c).1).sha3_trace k =
          env.sha3_trace k)) ∧
    (stackPeek c.stack 1 ≠ 64 → (Sha3PreimageTracer.call keccak env c).1 = env) := by
  by_cases hs : stackPeek c.stack 1 = 64
  · have himage : stackPeek (sha3_opcode keccak c).stack 0 =
        keccak (readBytes c.memory (stackPeek c.stack 0) (stackPeek c.stack 1)) := by
      show stackPeek (c.stack.dropLast.dropLast ++
        [keccak (readBytes c.memory (stackPeek c.stack 0) (stackPeek c.stack 1))]) 0 = _
      rw [stackPeek_append_one]
    refine ⟨?_, fun _ => ⟨?_, ?_, ?_⟩, fun hns => absurd hs hns⟩
    · simp only [Sha3PreimageTracer.call, hs]
      simp
    · simp [readBytes]
    · simp only [Sha3PreimageTracer.call, hs, ne_eq, not_true_eq_false, if_false]
      show (Env._trace_sha3_preimage env _ _).sha3_trace _ = _
      rw [himage, hs]
      simp only [Env._trace_sha3_preimage, if_pos rfl]
      rfl
    · intro k hk
      simp only [Sha3PreimageTracer.call, hs, ne_eq, not_true_eq_false, if_false]
      show (Env._trace_sha3_preimage env _ _).sha3_trace k = _
      rw [himage, hs] at *
      simp [Env._trace_sha3_preimage, hk]
  · refine ⟨?_, fun hcon => absurd hcon hs, fun _ => ?_⟩
    · simp only [Sha3PreimageTracer.call, hs]
      simp [hs]
    · simp only [Sha3PreimageTracer.call, hs]
      simp [hs]

/-- C9 witness: hashing with a concrete 64-byte input size records the
(image, preimage) pair. -/
theorem sha3_tracer_records_two_word_preimages_witness :
    ((Sha3PreimageTracer.call (fun l => l.length) envA compSha).1).sha3_trace
        ((fun l : List Nat => l.length)
          (readBytes compSha.memory (stackPeek compSha.stack 0) 64)) =
      some (readBytes compSha.memory (stackPeek compSha.stack 0) 64) :=
  ((sha3_tracer_records_two_word_preimages (fun l => l.length) envA compSha).2.1
    rfl).2.1

/-- C4: apply_computation delegates entirely to the underlying interpreter
when no handler is registered for the code address (including the empty
code address, which skips the lookup) or when the environment speed mode is
slow; when a handler is found and the mode is not slow, the native path
runs inside the freshly constructed frame and its result is returned, and
in particular a raised Halt signal yields ordinary non-exceptional frame
completion with that computation. -/
theorem apply_computation_fast_dispatch (env : Env)
    (superApply mkComp : EngineState → Message → ComputationObj)
    (state : EngineState) (msg : Message) :
    ((msg.code_address = [] ∨ Env._lookup_contract_fast env msg.code_address = none ∨
        env.speed = _SLOW) →
      titanoboa_apply_computation env superApply mkComp state msg =
        superApply state msg) ∧
    (∀ contract, msg.code_address ≠ [] →
      Env._lookup_contract_fast env msg.code_address = some contract →
      env.speed ≠ _SLOW →
      titanoboa_apply_computation env superApply mkComp state msg =
        (contract.ir_exec (mkComp state msg)).1 ∧
      (∀ comp, contract.ir_exec (mkComp state msg) = (comp, some VMSignal.halt) →
        titanoboa_apply_computation env superApply mkComp state msg = comp)) := by
  constructor
  · intro h
    rcases h with h | h | h
    · simp [titanoboa_apply_computation, h]
    · by_cases ha : msg.code_address = []
      · simp [titanoboa_apply_computation, ha]
      · simp [titanoboa_apply_computation, ha, h]
    · by_cases ha : msg.code_address = []
      · simp [titanoboa_apply_computation, ha]
      · cases hl : Env._lookup_contract_fast env msg.code_address with
        | none => simp [titanoboa_apply_computation, ha, hl]
        | some contract => simp [titanoboa_apply_computation, ha, hl, h, _SLOW]
  · intro contract ha hl hsp
    cases hE : contract.ir_exec (mkComp state msg) with
    | mk comp sig =>
      have hres : titanoboa_apply_computation env superApply mkComp state msg = comp := by
        simp only [titanoboa_apply_computation, ha, ne_eq, not_false_iff, if_true, hl]
        simp only [hsp, if_false, hE]
        cases sig with
        | none => rfl
        | some s => cases s; rfl
      constructor
      · rw [hres]
      · intro comp2 hE2
        have h1 : comp = comp2 := by injection hE2
        rw [hres, h1]

/-- C4 witness: with a registered handler at the code address, fast mode,
and a native executor that raises Halt, the frame completes ordinarily with
the handler's computation. -/
theorem apply_computation_fast_dispatch_witness :
    titanoboa_apply_computation envA (fun _ _ => compA) (fun _ _ => compA)
        stateA msgA = { compA with output := [7] } :=
  ((apply_computation_fast_dispatch envA (fun _ _ => compA) (fun _ _ => compA)
      stateA msgA).2 handlerHalt (by decide) rfl (by decide)).2
    { compA with output := [7] } rfl

/-- C2: when the underlying engine reports an error on a creation, deploy_code
re-raises it to the caller (an error result carrying the engine's error);
when the engine reports an error on an invocation, execute_code raises
nothing and returns the full computation object — failure flag included —
as an ordinary value. -/
theorem create_raises_call_returns
    (gen_addr : Addr → Nat → Addr)
    (apply_create apply_message : EngineState → Message → ComputationObj × EngineState)
    (env : Env) (e : Addr) (senderA senderB : Option Addr) (gasA gasB : Option Int)
    (valueA valueB : Nat) (bytecode data : List Nat) (pcA pcB : Nat)
    (override_address : Option Addr) (to_address : Addr)
    (override_bytecode : Option (List Nat)) (is_modifying : Bool)
    (fake_codesize : Option Nat)
    (cErr cRet : ComputationObj) (stA stB : EngineState)
    (heoa : env.eoa = some e)
    (hcreate : ∀ s m, apply_create s m = (cErr, stA))
    (herr : cErr.is_error = true)
    (hmsg : ∀ s m, apply_message s m = (cRet, stB)) :
    (Env.deploy_code gen_addr apply_create env senderA gasA valueA bytecode pcA
        override_address).1 = .error (.engineError cErr.error) ∧
    (Env.execute_code apply_message env to_address senderB gasB valueB data
        override_bytecode is_modifying pcB fake_codesize).1 = .ok cRet := by
  constructor
  · unfold Env.deploy_code
    rw [get_sender_ok env e senderA heoa]
    cases override_address with
    | none => simp [hcreate, herr]
    | some oa => simp [hcreate, herr]
  · unfold Env.execute_code
    rw [get_sender_ok env e senderB heoa]
    simp [hmsg]

/-- C2 witness: a constant failing engine makes deploy_code raise and
execute_code return the failing computation. -/
theorem create_raises_call_returns_witness :
    (Env.deploy_code (fun a n => a ++ [n]) (fun _ _ => (compErr, stateA)) envA
        none none 0 [] 0 none).1 = .error (.engineError compErr.error) ∧
    (Env.execute_code (fun _ _ => (compErr, stateA)) envA [2] none none 0 []
        none true 0 none).1 = .ok compErr :=
  create_raises_call_returns (fun a n => a ++ [n]) (fun _ _ => (compErr, stateA))
    (fun _ _ => (compErr, stateA)) envA [9] none none none none 0 0 [] [] 0 0
    none [2] none true none compErr compErr stateA stateA rfl
    (fun _ _ => rfl) rfl (fun _ _ => rfl)

/-- C10: with an override address, deploy_code leaves the sender's nonce in
the engine untouched (for any nonce-preserving engine submission); without
an override it increments exactly the sender's nonce and derives the target
address from the sender and the pre-increment nonce. -/
theorem deploy_override_address_leaves_nonce
    (gen_addr : Addr → Nat → Addr)
    (apply_create : EngineState → Message → ComputationObj × EngineState)
    (env : Env) (e oa : Addr) (sender : Option Addr) (gas : Option Int)
    (value : Nat) (bytecode : List Nat) (pc : Nat)
    (heoa : env.eoa = some e)
    (hpres : ∀ s m, ((apply_create s m).2).nonces = s.nonces) :
    ((Env.deploy_code gen_addr apply_create env sender gas value bytecode pc
        (some oa)).2).state.nonces = env.state.nonces ∧
    ((Env.deploy_code gen_addr apply_create env sender gas value bytecode pc
        none).2).state.nonces =
      (fun a => if a = sender.getD e then env.state.nonces a + 1
                else env.state.nonces a) ∧
    (∀ addr out,
      (Env.deploy_code gen_addr apply_create env sender gas value bytecode pc
          none).1 = .ok (addr, out) →
      addr = gen_addr (sender.getD e) (env.state.nonces (sender.getD e))) := by
  refine ⟨?_, ?_, ?_⟩
  · unfold Env.deploy_code
    rw [get_sender_ok env e sender heoa]
    simp only []
    split
    · exact hpres _ _
    · exact hpres _ _
  · unfold Env.deploy_code
    rw [get_sender_ok env e sender heoa]
    simp only []
    split
    · exact (hpres _ _).trans rfl
    · exact (hpres _ _).trans rfl
  · intro addr out
    unfold Env.deploy_code
    rw [get_sender_ok env e sender heoa]
    simp only []
    split
    · intro hok
      cases hok
    · intro hok
      cases hok
      rfl

/-- C10 witness: a concrete deploy with an override address leaves the
nonce map untouched. -/
theorem deploy_override_address_leaves_nonce_witness :
    ((Env.deploy_code (fun a n => a ++ [n]) (fun s _ => (compA, s)) envA
        none none 0 [] 0 (some [3])).2).state.nonces = envA.state.nonces :=
  (deploy_override_address_leaves_nonce (fun a n => a ++ [n])
    (fun s _ => (compA, s)) envA [9] [3] none none 0 [] 0 rfl
    (fun _ _ => rfl)).1
